import Mathlib

/-!
Shallow embedding of the Congress-Alpha daily PTR pipeline
(src/Scripts/daily_ptr_checker.py and src/Scripts/ptr_pdf_processor.py).

Python dictionaries holding transaction records are modelled as association
lists from string keys to a small value type; a Python value of None is the
explicit value `Value.vnone`, distinct from the key being absent.  External
collaborators (scrapers, the LLM parser, the database client) are modelled as
oracle fields of type `Except String _`: `Except.error` stands for the
collaborator raising an exception, `Except.ok` for a normal return.
-/

namespace CongressAlpha

/-- A Python value as it appears in the transaction dictionaries of the
pipeline: a string, None, a boolean, or an integer count. -/
inductive Value where
  | vstr : String → Value
  | vnone : Value
  | vbool : Bool → Value
  | vnat : Nat → Value
deriving Repr, DecidableEq

/-- A Python dict with string keys, as an association list. -/
abbrev Dict := List (String × Value)

/-- Python d.get(k): the bound value, or None when the key is absent. -/
def getKey (d : Dict) (k : String) : Value :=
  match d.lookup k with
  | some v => v
  | none => Value.vnone

/-- Python d.get(k, dflt). -/
def getKeyD (d : Dict) (k : String) (dflt : Value) : Value :=
  match d.lookup k with
  | some v => v
  | none => dflt

/-- Whether the key is present in the dict at all. -/
def hasKey (d : Dict) (k : String) : Bool :=
  (d.lookup k).isSome

/-- Python d[k] = v : replace the binding if the key is present, else append. -/
def setKey : Dict → String → Value → Dict
  | [], k, v => [(k, v)]
  | p :: ps, k, v => if p.1 = k then (k, v) :: ps else p :: setKey ps k v

/-- Lift an optional string (a Python value that may be None) into `Value`. -/
def ov : Option String → Value
  | none => Value.vnone
  | some s => Value.vstr s

/-- A House filing descriptor as consumed by the orchestrator: the fields read
via filing.get(...) in daily_ptr_checker.py.  Each field may be absent or
None, hence `Option String`. -/
structure Filing where
  doc_id : Option String
  pdf_url : Option String
  member_name : Option String
  office : Option String
deriving Repr, DecidableEq

/-- Python truthiness of an optional string: None and the empty string are
falsy. -/
def truthy : Option String → Bool
  | none => false
  | some s => !(s == "")

/-- The string carried by a doc_id field (meaningful when `truthy`). -/
def docStr (f : Filing) : String :=
  f.doc_id.getD ""

/-- The predicate a filing must satisfy to survive the dedup filter: a truthy
doc_id that is not among the already-known identifiers. -/
def keep (existing : List String) (f : Filing) : Bool :=
  truthy f.doc_id && !(existing.contains (docStr f))

/-- Loop body of filter_new_filings (daily_ptr_checker.py lines 159-170):
skip falsy doc_id, skip known doc_id, append otherwise, and break as soon as
the accumulated list reaches a positive limit. -/
def filterNewGo (existing : List String) (limit : Int) :
    List Filing → List Filing → List Filing
  | [], acc => acc
  | f :: fs, acc =>
    if !(truthy f.doc_id) then filterNewGo existing limit fs acc
    else if existing.contains (docStr f) then filterNewGo existing limit fs acc
    else if 0 < limit ∧ limit ≤ (acc.length : Int) + 1 then acc ++ [f]
    else filterNewGo existing limit fs (acc ++ [f])

/-- filter_new_filings(filings, existing_doc_ids, limit) from
daily_ptr_checker.py.  The known-identifier set is modelled as a list of
strings with membership, the limit as the Python int (Int). -/
def filter_new_filings (filings : List Filing) (existing : List String)
    (limit : Int) : List Filing :=
  filterNewGo existing limit filings []

theorem filterNewGo_limit_nonpos (existing : List String) (limit : Int)
    (h : limit ≤ 0) :
    ∀ (fs acc : List Filing),
      filterNewGo existing limit fs acc = acc ++ fs.filter (keep existing) := by
  intro fs
  induction fs with
  | nil => intro acc; simp [filterNewGo]
  | cons f fs ih =>
    intro acc
    cases ht : truthy f.doc_id with
    | false =>
      have hk : keep existing f = false := by simp [keep, ht]
      simp [filterNewGo, ht, List.filter_cons, hk, ih acc]
    | true =>
      cases hc : existing.contains (docStr f) with
      | true =>
        have hcm : docStr f ∈ existing := by simpa using hc
        have hk : keep existing f = false := by simp [keep, ht, hcm]
        simp [filterNewGo, ht, hc, hcm, List.filter_cons, hk, ih acc]
      | false =>
        have hcm : docStr f ∉ existing := by simpa using hc
        have hk : keep existing f = true := by simp [keep, ht, hcm]
        have hbr : ¬(0 < limit ∧ limit ≤ (acc.length : Int) + 1) := by
          rintro ⟨h1, _⟩; omega
        simp [filterNewGo, ht, hc, hcm, hbr, List.filter_cons, hk,
          ih (acc ++ [f])]

theorem filterNewGo_limit_pos (existing : List String) (limit : Int)
    (h : 0 < limit) :
    ∀ (fs acc : List Filing), (acc.length : Int) < limit →
      filterNewGo existing limit fs acc =
        acc ++ (fs.filter (keep existing)).take (limit - acc.length).toNat := by
  intro fs
  induction fs with
  | nil => intro acc hacc; simp [filterNewGo]
  | cons f fs ih =>
    intro acc hacc
    cases ht : truthy f.doc_id with
    | false =>
      have hk : keep existing f = false := by simp [keep, ht]
      simp [filterNewGo, ht, List.filter_cons, hk, ih acc hacc]
    | true =>
      cases hc : existing.contains (docStr f) with
      | true =>
        have hcm : docStr f ∈ existing := by simpa using hc
        have hk : keep existing f = false := by simp [keep, ht, hcm]
        simp [filterNewGo, ht, hc, hcm, List.filter_cons, hk, ih acc hacc]
      | false =>
        have hcm : docStr f ∉ existing := by simpa using hc
        have hk : keep existing f = true := by simp [keep, ht, hcm]
        by_cases hbr : 0 < limit ∧ limit ≤ (acc.length : Int) + 1
        · have h1 : (limit - acc.length).toNat = 1 := by omega
          simp [filterNewGo, ht, hc, hcm, hbr, List.filter_cons, hk, h1]
        · have h2 : ((acc ++ [f]).length : Int) < limit := by
            simp only [List.length_append, List.length_singleton]
            push_cast
            omega
          have h3 : (limit - acc.length).toNat =
              (limit - ((acc ++ [f]).length : Int)).toNat + 1 := by
            simp only [List.length_append, List.length_singleton]
            push_cast
            omega
          simp only [filterNewGo, ht, Bool.not_true, Bool.false_eq_true,
            if_false, hc, if_neg hbr]
          rw [ih (acc ++ [f]) h2]
          simp [List.filter_cons, hk, h3, List.take_succ_cons]

/-- Characterization of the dedup filter: with a positive limit it is a
truncated filter, otherwise a plain filter. -/
theorem filter_new_spec (F : List Filing) (K : List String) (L : Int) :
    filter_new_filings F K L =
      if 0 < L then (F.filter (keep K)).take L.toNat else F.filter (keep K) := by
  by_cases h : 0 < L
  · rw [filter_new_filings, filterNewGo_limit_pos K L h F [] (by simpa using h)]
    simp [h]
  · rw [filter_new_filings,
      filterNewGo_limit_nonpos K L (by omega) F []]
    simp [h]

/-- C5 (counterexample): a filing whose doc_id is the empty string has a
doc_id that is not in the known set, yet the dedup filter with limit 0 does
not return it, contradicting the claim that the output is exactly the
elements of F whose doc_id is not in K. -/
theorem filter_new_emptyid_cex :
    (⟨some "", some "u", some "m", some "House"⟩ : Filing) ∉
        filter_new_filings [⟨some "", some "u", some "m", some "House"⟩] [] 0 ∧
      "" ∉ ([] : List String) := by
  decide

/-- C5 (amended): with limit 0, the dedup filter returns exactly the elements
of F whose doc_id is truthy (present and non-empty) and not in K, in the
original order of F; the output is a sublist of F, hence introduces no
duplicates that were not already in F. -/
theorem filter_new_unlimited_exact (F : List Filing) (K : List String) :
    filter_new_filings F K 0 = F.filter (keep K) ∧
      List.Sublist (filter_new_filings F K 0) F := by
  have h := filter_new_spec F K 0
  simp only [lt_self_iff_false, if_false] at h
  exact ⟨h, h ▸ List.filter_sublist F⟩

/-- C7: with a positive limit L the dedup filter returns at most L
descriptors, while limit 0 imposes no cap: the output then has the length of
the full filtered list. -/
theorem filter_new_limit_respected (F : List Filing) (K : List String)
    (L : Int) :
    (0 < L → ((filter_new_filings F K L).length : Int) ≤ L) ∧
      (filter_new_filings F K 0).length = (F.filter (keep K)).length := by
  constructor
  · intro hL
    rw [filter_new_spec, if_pos hL]
    have hlen := List.length_take L.toNat (F.filter (keep K))
    omega
  · rw [filter_new_spec]
    simp

theorem filter_new_limit_respected_witness :
    ((filter_new_filings
        [⟨some "a", none, none, none⟩, ⟨some "b", none, none, none⟩]
        [] 1).length : Int) ≤ 1 :=
  (filter_new_limit_respected
    [⟨some "a", none, none, none⟩, ⟨some "b", none, none, none⟩] [] 1).1
    (by decide)

/-- C8: a filing descriptor with a missing, None, or empty-string doc_id never
appears in the dedup filter output, for any inputs and any limit. -/
theorem filter_new_malformed_excluded (F : List Filing) (K : List String)
    (L : Int) :
    (filter_new_filings F K L).all (fun f => truthy f.doc_id) = true := by
  rw [List.all_eq_true]
  intro f hf
  rw [filter_new_spec] at hf
  have hf2 : f ∈ F.filter (keep K) := by
    by_cases h : 0 < L
    · rw [if_pos h] at hf
      exact List.take_subset _ _ hf
    · rw [if_neg h] at hf
      exact hf
  have hkeep := (List.mem_filter.mp hf2).2
  simp only [keep, Bool.and_eq_true] at hkeep
  exact hkeep.1

/-- A Senate PTR link as produced by senate_scrape_links: a
(doc_id, url, member_name) triple whose components may be None. -/
structure Link where
  doc_id : Option String
  url : Option String
  member_name : Option String
deriving Repr, DecidableEq

/-- One row of _normalize_transactions (ptr_pdf_processor.py lines 54-64):
the dict literal mapping a parsed LLM row t to the Supabase schema fields. -/
def normalizeRow (t : Dict) : Dict :=
  [("transaction_date", getKey t "transaction_date_str"),
   ("ticker", getKey t "ticker"),
   ("asset_name", getKey t "company_name"),
   ("transaction_type", getKey t "transaction_type_full"),
   ("amount_low", getKey t "amount_low"),
   ("amount_high", getKey t "amount_high"),
   ("owner", getKey t "owner_code"),
   ("comment", getKeyD t "raw_llm_line" (Value.vstr ""))]

/-- The filing-metadata tagging of process_filings_to_transactions
(daily_ptr_checker.py lines 186-191): copy the transaction dict and assign
the four filing fields. -/
def tagTx (filing : Filing) (t : Dict) : Dict :=
  setKey (setKey (setKey (setKey t
    "doc_id" (ov filing.doc_id))
    "member_name" (ov filing.member_name))
    "office" (ov filing.office))
    "pdf_url" (ov filing.pdf_url)

/-- The Senate transaction dict literal of senate_links_to_transactions
(daily_ptr_checker.py lines 136-149), built from a link and one parsed LLM
row t. -/
def senateTxFromLink (l : Link) (t : Dict) : Dict :=
  [("doc_id", ov l.doc_id),
   ("member_name", ov l.member_name),
   ("office", Value.vstr "Senate"),
   ("pdf_url", ov l.url),
   ("ticker", getKey t "ticker"),
   ("asset_name", getKey t "company_name"),
   ("transaction_type", getKey t "transaction_type_full"),
   ("transaction_date", getKey t "transaction_date_str"),
   ("amount_low", getKey t "amount_low"),
   ("amount_high", getKey t "amount_high"),
   ("owner", getKey t "owner_code"),
   ("comment", getKeyD t "raw_llm_line" (Value.vstr ""))]

/-- The twelve canonical fields of a CanonicalTransaction. -/
def canonicalKeys : List String :=
  ["doc_id", "member_name", "office", "pdf_url", "ticker", "asset_name",
   "transaction_type", "transaction_date", "amount_low", "amount_high",
   "owner", "comment"]

/-- process_filings_to_transactions (daily_ptr_checker.py lines 173-196).
The per-filing extraction call (process_ptr_pdf plus reading the
transactions key of its result) is abstracted as the oracle `extract`; an
`Except.error` is a raised exception.  Returns the flattened tagged
transaction list together with the list of doc_id values logged as
failures, in order. -/
def process_filings_to_transactions
    (extract : Filing → Except String (List Dict)) :
    List Filing → List Dict × List (Option String)
  | [] => ([], [])
  | f :: fs =>
    match extract f with
    | .ok txs =>
      let rest := process_filings_to_transactions extract fs
      (txs.map (tagTx f) ++ rest.1, rest.2)
    | .error _ =>
      let rest := process_filings_to_transactions extract fs
      (rest.1, f.doc_id :: rest.2)

/-- C3: if extraction raises on one filing the batch extractor logs exactly
one failure carrying that filing's doc_id and continues; for a batch of
three filings whose second raises, the output is exactly the tagged
transactions of filings 1 and 3 and the failure log is exactly the doc_id of
filing 2. -/
theorem batch_failure_isolation
    (extract : Filing → Except String (List Dict))
    (f1 f2 f3 : Filing) (l1 l3 : List Dict) (e : String)
    (h1 : extract f1 = .ok l1) (h2 : extract f2 = .error e)
    (h3 : extract f3 = .ok l3) :
    process_filings_to_transactions extract [f1, f2, f3] =
      (l1.map (tagTx f1) ++ l3.map (tagTx f3), [f2.doc_id]) := by
  simp [process_filings_to_transactions, h1, h2, h3]

theorem batch_failure_isolation_witness :
    process_filings_to_transactions
        (fun f => if f.doc_id = some "B" then .error "boom"
          else .ok [[("ticker", Value.vstr "T")]])
        [⟨some "A", none, none, none⟩, ⟨some "B", none, none, none⟩,
         ⟨some "C", none, none, none⟩] =
      ([[("ticker", Value.vstr "T")]].map (tagTx ⟨some "A", none, none, none⟩)
          ++ [[("ticker", Value.vstr "T")]].map
            (tagTx ⟨some "C", none, none, none⟩),
        [some "B"]) :=
  batch_failure_isolation
    (fun f => if f.doc_id = some "B" then .error "boom"
      else .ok [[("ticker", Value.vstr "T")]])
    ⟨some "A", none, none, none⟩ ⟨some "B", none, none, none⟩
    ⟨some "C", none, none, none⟩
    [[("ticker", Value.vstr "T")]] [[("ticker", Value.vstr "T")]] "boom"
    rfl rfl rfl

/-- C9: a canonical transaction record produced by the House path (the
normalizer row followed by filing-metadata tagging) or by the Senate path
carries all twelve canonical keys, for every parsed source row t; a source
field that is absent from t is bound to the explicit None value by getKey,
never dropped. -/
theorem normalization_twelve_fields (t : Dict) (f : Filing) (l : Link) :
    (tagTx f (normalizeRow t)).map Prod.fst =
        ["transaction_date", "ticker", "asset_name", "transaction_type",
         "amount_low", "amount_high", "owner", "comment", "doc_id",
         "member_name", "office", "pdf_url"] ∧
      (senateTxFromLink l t).map Prod.fst = canonicalKeys ∧
      canonicalKeys.all (fun k => hasKey (tagTx f (normalizeRow t)) k) = true ∧
      canonicalKeys.all (fun k => hasKey (senateTxFromLink l t) k) = true :=
  ⟨rfl, rfl, rfl, rfl⟩

/-- The observable outcome of persist_transactions: whether the Supabase
gateway was constructed, whether its batch write ran, and the returned
summary dict. -/
structure PersistOutcome where
  gateway_constructed : Bool
  write_invoked : Bool
  summary : Dict
deriving Repr, DecidableEq

/-- persist_transactions (daily_ptr_checker.py lines 199-208).  The gateway
batch write is the oracle `gatewayWrite`; in dry-run mode neither the
gateway construction nor the write happens and the literal summary dict is
returned. -/
def persist_transactions (gatewayWrite : List Dict → Dict)
    (transactions : List Dict) (dry_run : Bool) : PersistOutcome :=
  if dry_run then
    { gateway_constructed := false, write_invoked := false,
      summary := [("dry_run", Value.vbool true),
                  ("transactions", Value.vnat transactions.length)] }
  else
    { gateway_constructed := true, write_invoked := true,
      summary := gatewayWrite transactions }

/-- C6: with dry-run enabled and a non-empty transaction list, the
persistence step constructs no gateway and invokes no batch write, and its
summary binds dry_run to True and transactions to the input length. -/
theorem persist_dry_run_no_write (gatewayWrite : List Dict → Dict)
    (transactions : List Dict) (_hne : transactions ≠ []) :
    (persist_transactions gatewayWrite transactions true).gateway_constructed
        = false ∧
      (persist_transactions gatewayWrite transactions true).write_invoked
        = false ∧
      getKey (persist_transactions gatewayWrite transactions true).summary
          "dry_run" = Value.vbool true ∧
      getKey (persist_transactions gatewayWrite transactions true).summary
          "transactions" = Value.vnat transactions.length := by
  refine ⟨rfl, rfl, rfl, ?_⟩
  simp [persist_transactions, getKey, List.lookup]

theorem persist_dry_run_no_write_witness :
    (persist_transactions (fun _ => []) [[("ticker", Value.vstr "T")]]
          true).write_invoked = false ∧
      getKey (persist_transactions (fun _ => [])
          [[("ticker", Value.vstr "T")]] true).summary "transactions"
        = Value.vnat 1 :=
  ⟨(persist_dry_run_no_write (fun _ => []) [[("ticker", Value.vstr "T")]]
      (by decide)).2.1,
   (persist_dry_run_no_write (fun _ => []) [[("ticker", Value.vstr "T")]]
      (by decide)).2.2.2⟩

/-- Raw bytes of a downloaded PDF document. -/
abbrev PdfBytes := List Nat

/-- The external collaborators of ptr_pdf_processor.py: availability of the
HOR scanner and parser imports, the scan_with_openrouter call, the
parse_llm_transactions call, the requests download, and the fitz-based page
text extraction.  An `Except.error` is the collaborator raising. -/
structure PdfOracles where
  scanner_available : Bool
  parser_available : Bool
  scan : Except String String
  parse : String → Except String (List Dict)
  download : Except String PdfBytes
  extractInner : PdfBytes → Except String String

/-- _extract_pdf_text (ptr_pdf_processor.py lines 26-38): the whole body is
wrapped in try/except, so any extraction failure yields the empty string. -/
def extract_pdf_text (o : PdfOracles) (b : PdfBytes) : String :=
  match o.extractInner b with
  | .ok s => s
  | .error _ => ""

/-- _normalize_transactions (ptr_pdf_processor.py lines 47-65): empty when
the parser import is unavailable, otherwise the parser output mapped through
normalizeRow; a parser exception propagates to the caller. -/
def normalize_transactions (o : PdfOracles) (csv : String) :
    Except String (List Dict) :=
  if o.parser_available = false then .ok []
  else
    match o.parse csv with
    | .ok parsed => .ok (parsed.map normalizeRow)
    | .error e => .error e

/-- The try block of the scanner branch of process_ptr_pdf (lines 77-80):
scan, then normalize; any exception inside surfaces as an error that the
caller turns into the fallback path. -/
def scannerAttempt (o : PdfOracles) : Except String (List Dict) :=
  match o.scan with
  | .error e => .error e
  | .ok csv => normalize_transactions o csv

/-- The value bound to the transactions key of the dict process_ptr_pdf
returns: a list of transaction dicts. -/
inductive RValue where
  | rlist : List Dict → RValue
deriving Repr, DecidableEq

/-- The result dict shape of process_ptr_pdf. -/
abbrev RDict := List (String × RValue)

/-- The fallback path of process_ptr_pdf (lines 84-98): a download failure
returns empty transactions; otherwise the text is extracted and, whether it
is blank, the parser is unavailable, or no LLM CSV can be produced without
an API call, the result is again empty transactions. -/
def fallbackResult (o : PdfOracles) : RDict :=
  match o.download with
  | .error _ => [("transactions", RValue.rlist [])]
  | .ok b =>
    if (extract_pdf_text o b).trim == "" || !o.parser_available then
      [("transactions", RValue.rlist [])]
    else
      [("transactions", RValue.rlist [])]

/-- process_ptr_pdf (ptr_pdf_processor.py lines 68-98). -/
def process_ptr_pdf (o : PdfOracles) : Except String RDict :=
  if o.scanner_available && o.parser_available then
    match scannerAttempt o with
    | .ok txs => .ok [("transactions", RValue.rlist txs)]
    | .error _ => .ok (fallbackResult o)
  else .ok (fallbackResult o)

theorem fallbackResult_empty (o : PdfOracles) :
    fallbackResult o = [("transactions", RValue.rlist [])] := by
  unfold fallbackResult
  cases o.download with
  | error e => rfl
  | ok b => simp

/-- The situations in which the scanner branch does not produce the result:
scanner or parser import missing, the scan raising, or the parser raising on
the scanned CSV.  These are exactly the runs that reach the fallback path,
which covers in particular a download failure and empty extracted text. -/
def scannerBranchTakesFallback (o : PdfOracles) : Prop :=
  o.scanner_available = false ∨ o.parser_available = false ∨
    (∃ e, o.scan = .error e) ∨
    (∃ s e, o.scan = .ok s ∧ o.parse s = .error e)

/-- C10: for every behavior of the collaborators, process_ptr_pdf never
propagates an exception and always returns a dict whose transactions key is
bound to a list; whenever the run falls back past the scanner branch (in
particular when the download raises or the extracted text is empty), that
list is empty. -/
theorem process_ptr_pdf_total (o : PdfOracles) :
    (∃ txs, process_ptr_pdf o = .ok [("transactions", RValue.rlist txs)]) ∧
      (scannerBranchTakesFallback o →
        process_ptr_pdf o = .ok [("transactions", RValue.rlist [])]) := by
  have hfb := fallbackResult_empty o
  constructor
  · cases hsa : o.scanner_available && o.parser_available with
    | false => exact ⟨[], by simp [process_ptr_pdf, hsa, hfb]⟩
    | true =>
      cases hat : scannerAttempt o with
      | ok txs => exact ⟨txs, by simp [process_ptr_pdf, hsa, hat]⟩
      | error e => exact ⟨[], by simp [process_ptr_pdf, hsa, hat, hfb]⟩
  · intro hfall
    cases hsa : o.scanner_available && o.parser_available with
    | false => simp [process_ptr_pdf, hsa, hfb]
    | true =>
      have hsa2 := Bool.and_eq_true_iff.mp hsa
      rcases hfall with h | h | ⟨e, hscan⟩ | ⟨s, e, hscan, hparse⟩
      · rw [hsa2.1] at h; exact absurd h (by simp)
      · rw [hsa2.2] at h; exact absurd h (by simp)
      · have hat : scannerAttempt o = .error e := by
          simp [scannerAttempt, hscan]
        simp [process_ptr_pdf, hsa, hat, hfb]
      · have hat : scannerAttempt o = .error e := by
          simp [scannerAttempt, hscan, normalize_transactions, hsa2.2, hparse]
        simp [process_ptr_pdf, hsa, hat, hfb]

/-- A run in which every collaborator is down: scanner and parser imports
missing, the scan raising, the download raising. -/
def pdfOracleDown : PdfOracles :=
  ⟨false, false, Except.error "llm down", fun _ => Except.ok [],
   Except.error "download failed", fun _ => Except.ok ""⟩

theorem process_ptr_pdf_total_witness :
    pdfOracleDown.scanner_available = false ∧
      process_ptr_pdf pdfOracleDown =
        .ok [("transactions", RValue.rlist [])] :=
  ⟨rfl, (process_ptr_pdf_total pdfOracleDown).2 (Or.inl rfl)⟩

/-- scrape_ptrs (daily_ptr_checker.py lines 66-78): calls the House scraper
and only logs; it has no exception handler, so a scraper failure propagates
to the caller unchanged. -/
def scrape_ptrs (scraper : Except String (List Filing)) :
    Except String (List Filing) :=
  scraper

/-- senate_scrape_links (daily_ptr_checker.py lines 81-98): empty when the
Senate scraper import is unavailable; any scraper exception is caught and
degrades to the empty list.  The tuple-or-dict normalization of the source
leaves well-formed links unchanged and is modelled as the identity. -/
def senate_scrape_links (available : Bool)
    (scrape : Except String (List Link)) : List Link :=
  if !available then []
  else
    match scrape with
    | .ok links => links
    | .error _ => []

/-- The per-link loop of senate_links_to_transactions (lines 120-153):
skip links with falsy doc_id or url, break once a positive max_count many
links have been processed, count each processed link, and append the tagged
rows of a successful extraction; a per-link exception is caught and the loop
continues.  Returns the transactions and the final processed count. -/
def senateLoop (proc : Link → Except String (List Dict)) (max_count : Int) :
    List Link → Nat → List Dict → List Dict × Nat
  | [], count, acc => (acc, count)
  | l :: ls, count, acc =>
    if !(truthy l.doc_id) || !(truthy l.url) then
      senateLoop proc max_count ls count acc
    else if 0 < max_count ∧ max_count ≤ (count : Int) then (acc, count)
    else
      match proc l with
      | .ok parsed =>
        senateLoop proc max_count ls (count + 1)
          (acc ++ parsed.map (senateTxFromLink l))
      | .error _ => senateLoop proc max_count ls (count + 1) acc

/-- senate_links_to_transactions (daily_ptr_checker.py lines 101-156):
empty when the Senate helpers are unavailable; the one verify_session call
has no handler, so its failure propagates; otherwise the per-link loop runs
with an initially zero count. -/
def senate_links_to_transactions (available : Bool)
    (verify : Except String Unit) (proc : Link → Except String (List Dict))
    (links : List Link) (max_count : Int) :
    Except String (List Dict × Nat) :=
  if !available then .ok ([], 0)
  else
    match verify with
    | .error e => .error e
    | .ok _ => .ok (senateLoop proc max_count links 0 [])

/-- The remaining-quota computation of main (daily_ptr_checker.py lines
258-259): remaining = max(0, limit - number of transactions accumulated so
far) when the limit is positive, else 0; the Senate cap is that remainder
when House is included and the remainder is positive, else the full limit
when positive, else the unlimited sentinel 0. -/
def senateQuotaFormula (include_house : Bool) (limit : Int)
    (houseTxCount : Nat) : Int :=
  if include_house = true ∧
      0 < (if 0 < limit then max 0 (limit - houseTxCount) else 0) then
    (if 0 < limit then max 0 (limit - houseTxCount) else 0)
  else if 0 < limit then limit else 0

/-- The run configuration of main: the House/Senate toggles, the raw --limit
argument, and --dry-run.  Year, headless mode and the page cap do not affect
the modelled control flow and are omitted. -/
structure DriverCfg where
  include_house : Bool
  include_senate : Bool
  limit_arg : Int
  dry_run : Bool
deriving Repr, DecidableEq

/-- The external collaborators of one run of main. -/
structure DriverOracles where
  houseScrape : Except String (List Filing)
  knownIds : Except String (List String)
  houseExtract : Filing → Except String (List Dict)
  senate_available : Bool
  senateLinks : Except String (List Link)
  senateVerify : Except String Unit
  senateProc : Link → Except String (List Dict)
  gatewayWrite : List Dict → Dict

/-- The observable outcome of one completed run of main. -/
structure RunResult where
  aborted : Bool
  houseNewFilings : List Filing
  houseTxCount : Nat
  senateQuota : Option Int
  senateProcessedCount : Nat
  all_transactions : List Dict
  persisted : Option PersistOutcome
deriving Repr, DecidableEq

/-- The early return of main when the database initialization fails. -/
def abortedRun : RunResult :=
  ⟨true, [], 0, none, 0, [], none⟩

/-- Steps 1 and 3 of main: the already-scraped House filings are
dedup-filtered against the known identifiers under the overall limit, and
the new filings are batch-extracted, when the House stage is included and
non-trivial. -/
def housePart (cfg : DriverCfg) (o : DriverOracles) (filings : List Filing)
    (existing : List String) (limit : Int) : List Filing × List Dict :=
  (if cfg.include_house && !filings.isEmpty then
      filter_new_filings filings existing limit
    else [],
   if (if cfg.include_house && !filings.isEmpty then
        filter_new_filings filings existing limit
      else []).isEmpty then []
    else
      (process_filings_to_transactions o.houseExtract
        (if cfg.include_house && !filings.isEmpty then
          filter_new_filings filings existing limit
        else [])).1)

/-- The Senate candidate links of main line 257: scraped links with a truthy
doc_id not among the known identifiers. -/
def senateCandidateLinks (o : DriverOracles) (existing : List String) :
    List Link :=
  (senate_scrape_links o.senate_available o.senateLinks).filter
    (fun l => truthy l.doc_id && !(existing.contains (l.doc_id.getD "")))

/-- Step 4 of main (lines 252-263): when the Senate stage is included and
available and some candidate links remain, compute the remaining quota and
run the Senate processing; the components are the Senate transactions, the
computed quota (none when the stage did not run), and the processed count. -/
def senateStage (cfg : DriverCfg) (o : DriverOracles) (existing : List String)
    (limit : Int) (houseTxs : List Dict) :
    Except String (List Dict × Option Int × Nat) :=
  if cfg.include_senate && o.senate_available then
    if (senateCandidateLinks o existing).isEmpty then .ok ([], none, 0)
    else
      match senate_links_to_transactions o.senate_available o.senateVerify
          o.senateProc (senateCandidateLinks o existing)
          (senateQuotaFormula cfg.include_house limit houseTxs.length) with
      | .error e => .error e
      | .ok (stxs, cnt) =>
        .ok (stxs,
          some (senateQuotaFormula cfg.include_house limit houseTxs.length),
          cnt)
  else .ok ([], none, 0)

/-- Step 5 of main (lines 265-271): exit without persisting when no
transactions were extracted, otherwise persist the combined list. -/
def finishRun (cfg : DriverCfg) (o : DriverOracles)
    (new_filings : List Filing) (houseTxs stxs : List Dict)
    (quota : Option Int) (scount : Nat) : RunResult :=
  ⟨false, new_filings, houseTxs.length, quota, scount, houseTxs ++ stxs,
   if (houseTxs ++ stxs).isEmpty then none
   else some (persist_transactions o.gatewayWrite (houseTxs ++ stxs)
     cfg.dry_run)⟩

/-- main (daily_ptr_checker.py lines 211-271): clamp the limit, scrape House
when included (an exception propagates), load the known identifiers (a
failure is an early non-crash return), run the House stage, run the Senate
stage, and persist. -/
def runPipeline (cfg : DriverCfg) (o : DriverOracles) :
    Except String RunResult :=
  match (if cfg.include_house then scrape_ptrs o.houseScrape
      else Except.ok []) with
  | .error e => .error e
  | .ok filings =>
    match o.knownIds with
    | .error _ => .ok abortedRun
    | .ok existing =>
      match senateStage cfg o existing (max 0 cfg.limit_arg)
          (housePart cfg o filings existing (max 0 cfg.limit_arg)).2 with
      | .error e => .error e
      | .ok (stxs, quota, scount) =>
        .ok (finishRun cfg o
          (housePart cfg o filings existing (max 0 cfg.limit_arg)).1
          (housePart cfg o filings existing (max 0 cfg.limit_arg)).2
          stxs quota scount)

theorem senateLoop_nocap (proc : Link → Except String (List Dict))
    (max_count : Int) (hmc : max_count ≤ 0) :
    ∀ (links : List Link) (count : Nat) (acc : List Dict),
      (senateLoop proc max_count links count acc).2 =
        count +
          (links.filter (fun l => truthy l.doc_id && truthy l.url)).length := by
  intro links
  induction links with
  | nil => intro count acc; simp [senateLoop]
  | cons l ls ih =>
    intro count acc
    cases hd : truthy l.doc_id with
    | false => simp [senateLoop, hd, List.filter_cons, ih]
    | true =>
      cases hu : truthy l.url with
      | false => simp [senateLoop, hd, hu, List.filter_cons, ih]
      | true =>
        have hbr : ¬(0 < max_count ∧ max_count ≤ (count : Int)) := by
          rintro ⟨a, _⟩; omega
        cases hp : proc l with
        | ok parsed =>
          simp [senateLoop, hd, hu, hbr, hp, List.filter_cons, ih]
          omega
        | error e =>
          simp [senateLoop, hd, hu, hbr, hp, List.filter_cons, ih]
          omega

theorem senateStage_quota (cfg : DriverCfg) (o : DriverOracles)
    (existing : List String) (limit : Int) (houseTxs : List Dict)
    (stxs : List Dict) (q : Int) (cnt : Nat)
    (h : senateStage cfg o existing limit houseTxs = .ok (stxs, some q, cnt)) :
    q = senateQuotaFormula cfg.include_house limit houseTxs.length := by
  unfold senateStage at h
  split at h
  · split at h
    · exact absurd h (by simp)
    · split at h
      · exact absurd h (by simp)
      · simp only [Except.ok.injEq, Prod.mk.injEq, Option.some.injEq] at h
        exact h.2.1.symm
  · exact absurd h (by simp)

/-- House filings used by the budget fixtures. -/
def houseFilingsW : List Filing :=
  [⟨some "H1", some "u1", some "m1", some "House"⟩,
   ⟨some "H2", some "u2", some "m2", some "House"⟩]

/-- Senate links used by the budget fixtures. -/
def senateLinksW : List Link :=
  [⟨some "S1", some "su1", some "sm1"⟩, ⟨some "S2", some "su2", some "sm2"⟩]

/-- Configuration with both sources on, overall limit 2, dry-run. -/
def cfgBudget : DriverCfg := ⟨true, true, 2, true⟩

/-- A run where House finds 2 fresh filings that each extract to zero
transactions and the Senate scraper finds 2 fresh valid links. -/
def oBudget : DriverOracles :=
  ⟨Except.ok houseFilingsW, Except.ok [], fun _ => Except.ok [], true,
   Except.ok senateLinksW, Except.ok (), fun _ => Except.ok [], fun _ => []⟩

/-- C1 (code-bug evidence): with overall limit 2, the run processes 2 new
House filings and then 2 more Senate filings, 4 newly processed filings in
total, because the remaining Senate quota is computed from the House
transaction count (here 0) instead of the House filing count. -/
theorem budget_exceeded_eval :
    (runPipeline cfgBudget oBudget).map
        (fun r => r.houseNewFilings.length + r.senateProcessedCount) =
      Except.ok 4 ∧
      cfgBudget.limit_arg = 2 :=
  ⟨rfl, rfl⟩

/-- Configuration with both sources on, overall limit 10, dry-run. -/
def cfgQuota : DriverCfg := ⟨true, true, 10, true⟩

/-- Four fresh House filings. -/
def houseFilingsQ : List Filing :=
  [⟨some "H1", some "u1", some "m1", some "House"⟩,
   ⟨some "H2", some "u2", some "m2", some "House"⟩,
   ⟨some "H3", some "u3", some "m3", some "House"⟩,
   ⟨some "H4", some "u4", some "m4", some "House"⟩]

/-- A run with limit 10 where House yields 4 new filings, each extracting to
zero transactions, and one fresh valid Senate link. -/
def oQuota : DriverOracles :=
  ⟨Except.ok houseFilingsQ, Except.ok [], fun _ => Except.ok [], true,
   Except.ok [⟨some "S1", some "su1", some "sm1"⟩], Except.ok (),
   fun _ => Except.ok [], fun _ => []⟩

/-- The result of that run. -/
def rQuota : RunResult :=
  ⟨false, houseFilingsQ, 0, some 10, 1, [], none⟩

/-- C2 (counterexample): with overall limit 10 and a House stage that
produced 4 new filings, the computed Senate quota is 10, not
max(0, 10 - 4) = 6: the code subtracts the House transaction count (0
here), not the House filing count. -/
theorem senate_quota_claim_cex :
    (runPipeline cfgQuota oQuota).map
        (fun r => (r.houseNewFilings.length, r.senateQuota)) =
      Except.ok (4, some 10) ∧
      ¬((10 : Int) = max 0 (10 - 4)) :=
  ⟨rfl, by decide⟩

/-- C2 (amended): whenever a run computes a Senate quota q, q equals the
source formula applied to the House toggle, the clamped overall limit, and
the number of House-stage transactions: the positive remainder
max(0, limit - houseTxCount) when House is included and that remainder is
positive, else the full positive limit, else the sentinel 0; and the
sentinel 0 imposes no cap, the Senate loop then processing every valid
link. -/
theorem senate_quota_formula_correct (cfg : DriverCfg) (o : DriverOracles)
    (r : RunResult) (q : Int)
    (hrun : runPipeline cfg o = .ok r) (hq : r.senateQuota = some q) :
    q = senateQuotaFormula cfg.include_house (max 0 cfg.limit_arg)
        r.houseTxCount ∧
      ∀ (proc : Link → Except String (List Dict)) (links : List Link),
        (senateLoop proc 0 links 0 []).2 =
          (links.filter (fun l => truthy l.doc_id && truthy l.url)).length := by
  constructor
  · unfold runPipeline at hrun
    split at hrun
    · exact absurd hrun (by simp)
    · split at hrun
      · simp only [Except.ok.injEq] at hrun
        rw [← hrun] at hq
        simp [abortedRun] at hq
      · split at hrun
        · exact absurd hrun (by simp)
        · rename_i filings existing stxs qopt scount heq
          simp only [Except.ok.injEq] at hrun
          rw [← hrun] at hq
          simp only [finishRun] at hq
          rw [hq] at heq
          have hform := senateStage_quota _ _ _ _ _ _ _ _ heq
          rw [← hrun]
          simpa [finishRun] using hform
  · intro proc links
    simpa using senateLoop_nocap proc 0 (by omega) links 0 []

theorem senate_quota_formula_correct_witness :
    (10 : Int) = senateQuotaFormula cfgQuota.include_house
        (max 0 cfgQuota.limit_arg) rQuota.houseTxCount :=
  (senate_quota_formula_correct cfgQuota oQuota rQuota 10 rfl rfl).1

/-- Configuration for the scrape-failure runs: both sources on, limit 5. -/
def cfgAbort : DriverCfg := ⟨true, true, 5, true⟩

/-- A run where the House scraper raises; fresh Senate links are waiting. -/
def oAbort : DriverOracles :=
  ⟨Except.error "neterr", Except.ok [], fun _ => Except.ok [], true,
   Except.ok [⟨some "S1", some "su1", some "sm1"⟩], Except.ok (),
   fun _ => Except.ok [], fun _ => []⟩

/-- A run where the Senate scraper raises and House scrapes nothing. -/
def oDegrade : DriverOracles :=
  ⟨Except.ok [], Except.ok [], fun _ => Except.ok [], true,
   Except.error "selenium down", Except.ok (), fun _ => Except.ok [],
   fun _ => []⟩

/-- C4 (counterexample): when the House scraping collaborator raises, the
exception propagates through scrape_ptrs and main uncaught: the run aborts
with that error before the Senate source is ever consulted, contrary to the
claim that a scrape failure of either source degrades to zero filings with
the run continuing. -/
theorem house_scrape_abort_cex :
    runPipeline cfgAbort oAbort = Except.error "neterr" :=
  rfl

/-- C4 (amended): a Senate scrape failure is caught and degrades to zero
Senate links, after which the run continues to a normal non-aborted result;
a House scrape failure, by contrast, propagates and aborts the whole run. -/
theorem scrape_failure_handling (cfg : DriverCfg) (o : DriverOracles)
    (eH eS : String) (fs : List Filing) (ex : List String) :
    (cfg.include_house = true → o.houseScrape = .error eH →
        runPipeline cfg o = .error eH) ∧
      (o.senateLinks = .error eS →
        senate_scrape_links o.senate_available o.senateLinks = []) ∧
      (o.houseScrape = .ok fs → o.knownIds = .ok ex →
        o.senateLinks = .error eS →
        ∃ r, runPipeline cfg o = .ok r ∧ r.aborted = false ∧
          r.senateQuota = none ∧ r.senateProcessedCount = 0) := by
  refine ⟨?_, ?_, ?_⟩
  · intro hic hhe
    unfold runPipeline
    rw [hic]
    simp [scrape_ptrs, hhe]
  · intro hse
    cases ha : o.senate_available <;> simp [senate_scrape_links, hse, ha]
  · intro hho hkn hse
    have hsl : ∀ ex2, senateCandidateLinks o ex2 = [] := by
      intro ex2
      cases ha : o.senate_available <;>
        simp [senateCandidateLinks, senate_scrape_links, hse, ha]
    have hss : ∀ htx, senateStage cfg o ex (max 0 cfg.limit_arg) htx =
        .ok ([], none, 0) := by
      intro htx
      unfold senateStage
      cases his : cfg.include_senate && o.senate_available with
      | false => simp
      | true => simp [hsl]
    cases hic : cfg.include_house with
    | true =>
      refine ⟨finishRun cfg o
        (housePart cfg o fs ex (max 0 cfg.limit_arg)).1
        (housePart cfg o fs ex (max 0 cfg.limit_arg)).2 [] none 0, ?_, rfl,
        rfl, rfl⟩
      unfold runPipeline
      rw [hic]
      simp only [scrape_ptrs, hho, hkn, if_true]
      rw [hss]
    | false =>
      refine ⟨finishRun cfg o
        (housePart cfg o [] ex (max 0 cfg.limit_arg)).1
        (housePart cfg o [] ex (max 0 cfg.limit_arg)).2 [] none 0, ?_, rfl,
        rfl, rfl⟩
      unfold runPipeline
      rw [hic]
      simp only [hkn, Bool.false_eq_true, if_false]
      rw [hss]

theorem scrape_failure_handling_witness :
    runPipeline cfgAbort oAbort = Except.error "neterr" ∧
      ∃ r, runPipeline cfgAbort oDegrade = Except.ok r ∧ r.aborted = false ∧
        r.senateQuota = none ∧ r.senateProcessedCount = 0 :=
  ⟨(scrape_failure_handling cfgAbort oAbort "neterr" "x" [] []).1 rfl rfl,
   (scrape_failure_handling cfgAbort oDegrade "x" "selenium down" []
     []).2.2 rfl rfl rfl⟩

end CongressAlpha
